import Mathlib

/-!
Verification of the intelligence-graph engine of the Digital Footprint Mapper
dashboard (the canvas-based node-link graph component).

The embedding is generic over a linear ordered field `K` standing for the
numeric type of the host language; the transcendental library functions
`Math.cos`, `Math.sin`, `Math.sqrt` are passed in as explicit function
parameters, so every definition below is a direct transliteration of the
component's code.  Claims about concrete square roots are instantiated at
`K = ℝ` with `Real.sqrt`; purely rational claims are instantiated at `ℚ`.
-/

namespace DFM

/-- A raw node record of the `graph_data` payload: `{id, label, type, attributes}`.
`attributes` is optional pass-through data (`nodeData.attributes || {}`). -/
structure RawNode where
  id : String
  label : String
  type : String
  attributes : Option (List (String × String))
deriving DecidableEq, Repr

/-- A raw edge record of the `graph_data` payload: `{from, to, title}`.
The source fields are named `from` and `to`; they are rendered here as
`fromId` and `toId` because `from` is a reserved word in Lean. -/
structure RawEdge where
  fromId : String
  toId : String
  title : Option String
deriving DecidableEq, Repr

/-- The engine's internal node type (interface `GraphNode`). -/
structure GraphNode (K : Type*) where
  id : String
  label : String
  type : String
  x : K
  y : K
  details : List (String × String)
deriving DecidableEq, Repr

/-- The engine's internal edge type (interface `GraphEdge`). -/
structure GraphEdge where
  source : String
  target : String
  relationship : String
deriving DecidableEq, Repr

/-- JavaScript's `a || b` on an optional string: `undefined` and the empty
string are falsy, any other string is returned unchanged. -/
def jsOrString (a : Option String) (b : String) : String :=
  match a with
  | none => b
  | some s => if s = "" then b else s

variable {K : Type*} [LinearOrderedField K]

/-- The node-building loop of `generateGraphData`: walks the raw node list
with its running index `i` and places node `i` at
`(400 + cos(i * 0.5) * 150, 300 + sin(i * 0.5) * 150)`. -/
def buildNodes (mcos msin : K → K) : ℕ → List RawNode → List (GraphNode K)
  | _, [] => []
  | i, nd :: rest =>
    { id := nd.id
      label := nd.label
      type := nd.type
      x := 400 + mcos ((i : K) * (1/2)) * 150
      y := 300 + msin ((i : K) * (1/2)) * 150
      details := nd.attributes.getD [] } :: buildNodes mcos msin (i + 1) rest

/-- The edge-building loop of `generateGraphData`:
`{source: edgeData.from, target: edgeData.to, relationship: edgeData.title || "connected"}`. -/
def buildEdges (es : List RawEdge) : List GraphEdge :=
  es.map fun e => { source := e.fromId, target := e.toId,
                    relationship := jsOrString e.title "connected" }

/-- `generateGraphData`: converts the raw `graph_data` payload into the
engine's internal `{nodes, edges}` model.  No filtering of any kind is
performed on either list. -/
def generateGraphData (mcos msin : K → K) (ns : List RawNode) (es : List RawEdge) :
    List (GraphNode K) × List GraphEdge :=
  (buildNodes mcos msin 0 ns, buildEdges es)

/-! ### JavaScript `Map` semantics

`nodePositions` is a JavaScript `Map`.  `Map.set` overwrites the value of an
existing key in place and appends a fresh key at the end; constructing a map
from an entry list folds `set` over the entries, so a later entry with the
same key overwrites an earlier one ("last one wins").  We model a map as an
association list with unique keys together with these two operations. -/

/-- `Map.prototype.set`: overwrite in place if the key is present, else append. -/
def mapSet (m : List (String × α)) (k : String) (v : α) : List (String × α) :=
  if m.any (fun p => p.1 = k) then
    m.map (fun p => if p.1 = k then (k, v) else p)
  else
    m ++ [(k, v)]

/-- `Map.prototype.get`, returning `undefined` as `none`. -/
def mapGet (m : List (String × α)) (k : String) : Option α :=
  (m.find? (fun p => p.1 = k)).map Prod.snd

/-- `new Map(entries)`: fold `set` over the entry list. -/
def mapOfList (l : List (String × α)) : List (String × α) :=
  l.foldl (fun m p => mapSet m p.1 p.2) []

/-- The initial `nodePositions` state:
`new Map(graphData.nodes.map((n) => [n.id, { x: n.x, y: n.y }]))`. -/
def initPositions (nodes : List (GraphNode K)) : List (String × (K × K)) :=
  mapOfList (nodes.map fun n => (n.id, (n.x, n.y)))

/-! ### Viewport transform -/

/-- The world-to-screen mapping applied by `draw`:
`ctx.translate(pan.x, pan.y); ctx.scale(zoom, zoom)` composes to
`screen = world * zoom + pan` componentwise. -/
def worldToScreen (zoom : K) (pan : K × K) (w : K × K) : K × K :=
  (w.1 * zoom + pan.1, w.2 * zoom + pan.2)

/-- The screen-to-world mapping used by `getNodeAtPosition` and by node drag:
`x = (screenX - pan.x) / zoom`, `y = (screenY - pan.y) / zoom`
(screen coordinates are relative to the canvas rectangle). -/
def screenToWorld (zoom : K) (pan : K × K) (s : K × K) : K × K :=
  ((s.1 - pan.1) / zoom, (s.2 - pan.2) / zoom)

/-! ### Node styling -/

/-- `getNodeSize`: type-keyed radius lookup table with default 20. -/
def getNodeSize (t : String) : K :=
  match t with
  | "person" => 60
  | "sensitive_data" => 40
  | "repository" => 28
  | "organization" => 28
  | "email" => 25
  | "platform" => 24
  | "account" => 22
  | "identity" => 20
  | "location" => 18
  | "website" => 18
  | "domain" => 16
  | "user" => 30
  | "sensitive" => 22
  | _ => 20

/-! ### Renderer (edge pass)

The edge loop of `draw` looks up both endpoint positions and returns early
(drawing nothing for that edge) when either lookup fails; otherwise it emits
a line segment from the source position to the target position. -/

/-- The list of edge segments actually emitted by `draw`'s edge loop, each
paired with the edge it came from. -/
def drawnEdges (edges : List GraphEdge) (positions : List (String × (K × K))) :
    List (GraphEdge × (K × K) × (K × K)) :=
  edges.filterMap fun e =>
    match mapGet positions e.source, mapGet positions e.target with
    | some sp, some tp => some (e, sp, tp)
    | _, _ => none

/-! ### Hit-testing -/

/-- The loop body of `getNodeAtPosition`: walk the node list in draw order,
skip nodes without a stored position, and return the first node whose center
is within its type-determined radius of the world point `(x, y)`
(`dist = sqrt(dx² + dy²); if (dist <= size) return node`). -/
def findNodeAt (msqrt : K → K) (positions : List (String × (K × K))) (x y : K) :
    List (GraphNode K) → Option (GraphNode K)
  | [] => none
  | n :: rest =>
    match mapGet positions n.id with
    | none => findNodeAt msqrt positions x y rest
    | some pos =>
      if msqrt ((x - pos.1) ^ 2 + (y - pos.2) ^ 2) ≤ getNodeSize n.type then
        some n
      else
        findNodeAt msqrt positions x y rest

/-- `getNodeAtPosition(clientX, clientY)`: convert the pointer's client
position to world space (`(client - rect.corner - pan) / zoom`) and scan the
node list.  `rl`/`rt` are `rect.left`/`rect.top` of the canvas. -/
def getNodeAtPosition (msqrt : K → K) (nodes : List (GraphNode K))
    (positions : List (String × (K × K))) (zoom : K) (pan : K × K)
    (rl rt cx cy : K) : Option (GraphNode K) :=
  findNodeAt msqrt positions
    (screenToWorld zoom pan (cx - rl, cy - rt)).1
    (screenToWorld zoom pan (cx - rl, cy - rt)).2
    nodes

/-! ### Interaction state

The component's interaction state is held in independent `useState` fields:
`zoom` (initially 1), `pan` (initially `(0,0)`), `isDragging` (the panning
flag, initially `false`), `dragStart`, `hoveredNode`, `nodePositions` and
`draggingNode` (initially `null`). -/

structure EngineState (K : Type*) where
  zoom : K
  pan : K × K
  isDragging : Bool
  dragStart : K × K
  hoveredNode : Option (GraphNode K)
  nodePositions : List (String × (K × K))
  draggingNode : Option String
deriving DecidableEq

/-- The initial state of the component for a given built node list. -/
def initState (nodes : List (GraphNode K)) : EngineState K :=
  { zoom := 1
    pan := (0, 0)
    isDragging := false
    dragStart := (0, 0)
    hoveredNode := none
    nodePositions := initPositions nodes
    draggingNode := none }

/-- `handleMouseMove`: while `draggingNode` is set, move that node to the
pointer's world position; else while `isDragging` (panning), accumulate the
pointer delta into `pan` and re-anchor `dragStart`; otherwise update the
hovered node from a hit-test. -/
def handleMouseMove (msqrt : K → K) (nodes : List (GraphNode K))
    (rl rt cx cy : K) (s : EngineState K) : EngineState K :=
  match s.draggingNode with
  | some id =>
    let x := (cx - rl - s.pan.1) / s.zoom
    let y := (cy - rt - s.pan.2) / s.zoom
    { s with nodePositions := mapSet s.nodePositions id (x, y) }
  | none =>
    if s.isDragging then
      { s with
        pan := (s.pan.1 + (cx - s.dragStart.1), s.pan.2 + (cy - s.dragStart.2))
        dragStart := (cx, cy) }
    else
      { s with hoveredNode :=
          getNodeAtPosition msqrt nodes s.nodePositions s.zoom s.pan rl rt cx cy }

/-- `handleMouseDown`: hit-test; on a node start dragging it, otherwise start
panning and record the pointer position as the drag anchor. -/
def handleMouseDown (msqrt : K → K) (nodes : List (GraphNode K))
    (rl rt cx cy : K) (s : EngineState K) : EngineState K :=
  match getNodeAtPosition msqrt nodes s.nodePositions s.zoom s.pan rl rt cx cy with
  | some n => { s with draggingNode := some n.id }
  | none => { s with isDragging := true, dragStart := (cx, cy) }

/-- `handleMouseUp` (also bound to `onMouseLeave`): clear both the panning
flag and the dragged-node id. -/
def handleMouseUp (s : EngineState K) : EngineState K :=
  { s with isDragging := false, draggingNode := none }

/-- JavaScript's `node?.id || null`: `null` when there is no node, and `null`
again when the node's id is the empty string (the only falsy string). -/
def jsIdOrNull : Option (GraphNode K) → Option String
  | none => none
  | some n => if n.id = "" then none else some n.id

/-- `handleClick`: the node id reported to the host via `onNodeSelect`,
namely `getNodeAtPosition(...)?.id || null`. -/
def handleClick (msqrt : K → K) (nodes : List (GraphNode K))
    (rl rt cx cy : K) (s : EngineState K) : Option String :=
  jsIdOrNull (getNodeAtPosition msqrt nodes s.nodePositions s.zoom s.pan rl rt cx cy)

/-- `handleWheel`: `delta = e.deltaY > 0 ? 0.9 : 1.1;`
`setZoom(z => Math.min(Math.max(z * delta, 0.5), 2))`. -/
def handleWheel (deltaY : K) (s : EngineState K) : EngineState K :=
  let delta : K := if deltaY > 0 then (9 : K)/10 else (11 : K)/10
  { s with zoom := min (max (s.zoom * delta) ((1 : K)/2)) 2 }

/-- The zoom-in button: `setZoom(z => Math.min(z * 1.2, 2))`. -/
def zoomInButton (s : EngineState K) : EngineState K :=
  { s with zoom := min (s.zoom * ((12 : K)/10)) 2 }

/-- The zoom-out button: `setZoom(z => Math.max(z * 0.8, 0.5))`. -/
def zoomOutButton (s : EngineState K) : EngineState K :=
  { s with zoom := max (s.zoom * ((8 : K)/10)) ((1 : K)/2) }

/-- The reset button: `setZoom(1); setPan({x: 0, y: 0})`. -/
def resetButton (s : EngineState K) : EngineState K :=
  { s with zoom := 1, pan := (0, 0) }

/-- The input events the component reacts to.  `mouseLeave` is wired to the
same handler as `mouseUp` (`onMouseLeave={handleMouseUp}`). -/
inductive Event (K : Type*) where
  | mouseMove (cx cy : K)
  | mouseDown (cx cy : K)
  | mouseUp
  | mouseLeave
  | wheel (deltaY : K)
  | zoomIn
  | zoomOut
  | resetView
deriving DecidableEq

/-- One step of the interaction engine: dispatch an event to its handler. -/
def step (msqrt : K → K) (nodes : List (GraphNode K)) (rl rt : K) :
    Event K → EngineState K → EngineState K
  | .mouseMove cx cy, s => handleMouseMove msqrt nodes rl rt cx cy s
  | .mouseDown cx cy, s => handleMouseDown msqrt nodes rl rt cx cy s
  | .mouseUp, s => handleMouseUp s
  | .mouseLeave, s => handleMouseUp s
  | .wheel d, s => handleWheel d s
  | .zoomIn, s => zoomInButton s
  | .zoomOut, s => zoomOutButton s
  | .resetView, s => resetButton s

/-- Run a finite event sequence from a state. -/
def run (msqrt : K → K) (nodes : List (GraphNode K)) (rl rt : K)
    (events : List (Event K)) (s : EngineState K) : EngineState K :=
  events.foldl (fun st e => step msqrt nodes rl rt e st) s

/-! ### Spec-side definitions and test fixtures

`nodeHit` and `firstHitNode` restate the specification's description of
hit-testing ("find the node whose center is within its own radius of the
pointer — if multiple nodes qualify, the one encountered first in draw order
wins") to be compared against the implementation's `getNodeAtPosition`. -/

/-- Spec-side hit predicate: the node's stored center is within its
type-determined radius of the world point `w`. -/
def nodeHit (msqrt : K → K) (positions : List (String × (K × K))) (w : K × K)
    (n : GraphNode K) : Bool :=
  match mapGet positions n.id with
  | none => false
  | some pos =>
    decide (msqrt ((w.1 - pos.1) ^ 2 + (w.2 - pos.2) ^ 2) ≤ getNodeSize n.type)

/-- Spec-side hit-test: the first node in draw (list) order satisfying
`nodeHit`. -/
def firstHitNode (msqrt : K → K) (positions : List (String × (K × K))) (w : K × K)
    (nodes : List (GraphNode K)) : Option (GraphNode K) :=
  nodes.find? (nodeHit msqrt positions w)

/-- Discipline on event sequences: a pointer-down may only occur when no
pointer-down is currently held (the boolean argument), i.e. downs and
ups/leaves alternate.  Used to state the amended mutual-exclusion claim. -/
def wellNested : Bool → List (Event K) → Bool
  | _, [] => true
  | held, e :: rest =>
    match e with
    | .mouseDown _ _ => !held && wellNested true rest
    | .mouseUp => wellNested false rest
    | .mouseLeave => wellNested false rest
    | _ => wellNested held rest

/-- Invariant carried through the event-sequence induction: panning and node
drag are not simultaneously active, and while no pointer-down is held both
are inactive. -/
def FlagsOK (held : Bool) (s : EngineState K) : Prop :=
  (s.isDragging = false ∨ s.draggingNode = none) ∧
    (held = false → s.isDragging = false ∧ s.draggingNode = none)

/-- A concrete engine state over `ℚ` with two stored positions and an active
node drag, used to instantiate drag theorems. -/
def sampleDragState : EngineState ℚ :=
  { zoom := 1, pan := (0, 0), isDragging := false, dragStart := (0, 0),
    hoveredNode := none, nodePositions := [("a", (1, 2)), ("b", (3, 4))],
    draggingNode := some "a" }

/-- A node whose id is the empty string, positioned at the origin. -/
def emptyIdNode : GraphNode ℚ := ⟨"", "L", "t", 0, 0, []⟩

/-- The initial engine state for the single empty-id node. -/
def emptyIdState : EngineState ℚ := initState [emptyIdNode]

/-! ### Lemmas about the `Map` model -/

theorem mapGet_cons {α : Type*} (q : String × α) (m : List (String × α)) (k : String) :
    mapGet (q :: m) k = if q.1 = k then some q.2 else mapGet m k := by
  by_cases h : q.1 = k <;> simp [mapGet, List.find?_cons, h]

theorem mapGet_map_replace_of_mem {α : Type*} (m : List (String × α)) (k : String) (v : α)
    (h : ∃ p ∈ m, p.1 = k) :
    mapGet (m.map (fun p => if p.1 = k then (k, v) else p)) k = some v := by
  induction m with
  | nil => simp at h
  | cons q m ih =>
    by_cases hq : q.1 = k
    · simp [mapGet, hq]
    · have h' : ∃ p ∈ m, p.1 = k := by
        rcases h with ⟨p, hp, hpk⟩
        rcases List.mem_cons.mp hp with rfl | hpm
        · exact absurd hpk hq
        · exact ⟨p, hpm, hpk⟩
      have := ih h'
      simpa [mapGet, hq] using this

theorem mapGet_append_single_of_not_mem {α : Type*} (m : List (String × α)) (k : String) (v : α)
    (h : ∀ p ∈ m, p.1 ≠ k) :
    mapGet (m ++ [(k, v)]) k = some v := by
  induction m with
  | nil => simp [mapGet]
  | cons q m ih =>
    have hq : q.1 ≠ k := h q (List.mem_cons_self _ _)
    have h' : ∀ p ∈ m, p.1 ≠ k := fun p hp => h p (List.mem_cons_of_mem _ hp)
    simpa [mapGet, hq] using ih h'

/-- `Map.set` followed by `Map.get` on the same key yields the new value. -/
theorem mapGet_mapSet_self {α : Type*} (m : List (String × α)) (k : String) (v : α) :
    mapGet (mapSet m k v) k = some v := by
  unfold mapSet
  by_cases h : m.any (fun p => p.1 = k)
  · rw [if_pos h]
    refine mapGet_map_replace_of_mem m k v ?_
    rcases List.any_eq_true.mp h with ⟨p, hp, hpk⟩
    exact ⟨p, hp, of_decide_eq_true hpk⟩
  · rw [if_neg h]
    refine mapGet_append_single_of_not_mem m k v ?_
    intro p hp hpk
    exact h (List.any_eq_true.mpr ⟨p, hp, decide_eq_true hpk⟩)

/-- `Map.set` leaves the value of every other key unchanged. -/
theorem mapGet_mapSet_ne {α : Type*} (m : List (String × α)) (k k' : String) (v : α)
    (hne : k' ≠ k) : mapGet (mapSet m k v) k' = mapGet m k' := by
  unfold mapSet
  by_cases h : m.any (fun p => p.1 = k)
  · rw [if_pos h]
    clear h
    induction m with
    | nil => rfl
    | cons q m ih =>
      by_cases hq : q.1 = k
      · have hq' : q.1 ≠ k' := by rw [hq]; exact Ne.symm hne
        rw [List.map_cons, if_pos hq, mapGet_cons, mapGet_cons,
          if_neg (Ne.symm hne : k ≠ k'), if_neg hq']
        exact ih
      · rw [List.map_cons, if_neg hq, mapGet_cons, mapGet_cons]
        by_cases hq' : q.1 = k'
        · rw [if_pos hq', if_pos hq']
        · rw [if_neg hq', if_neg hq']
          exact ih
  · rw [if_neg h]
    clear h
    induction m with
    | nil =>
      rw [List.nil_append, mapGet_cons, if_neg (Ne.symm hne : k ≠ k')]
    | cons q m ih =>
      rw [List.cons_append, mapGet_cons, mapGet_cons]
      by_cases hq' : q.1 = k'
      · rw [if_pos hq', if_pos hq']
      · rw [if_neg hq', if_neg hq']
        exact ih

theorem mapGet_foldl_mapSet_of_not_mem {α : Type*} (l : List (String × α)) (k : String)
    (h : ∀ p ∈ l, p.1 ≠ k) (acc : List (String × α)) :
    mapGet (l.foldl (fun m p => mapSet m p.1 p.2) acc) k = mapGet acc k := by
  induction l generalizing acc with
  | nil => rfl
  | cons q l ih =>
    have hq : q.1 ≠ k := h q (List.mem_cons_self _ _)
    have h' : ∀ p ∈ l, p.1 ≠ k := fun p hp => h p (List.mem_cons_of_mem _ hp)
    rw [List.foldl_cons, ih h', mapGet_mapSet_ne _ _ _ _ (Ne.symm hq)]

/-- A key appearing in no entry of the list is absent from the built map. -/
theorem mapGet_mapOfList_of_not_mem {α : Type*} (l : List (String × α)) (k : String)
    (h : ∀ p ∈ l, p.1 ≠ k) : mapGet (mapOfList l) k = none := by
  rw [mapOfList, mapGet_foldl_mapSet_of_not_mem l k h]
  rfl

/-- Building a map from an entry list whose last entry has key `k` stores that
last entry's value at `k` ("last one wins"). -/
theorem mapGet_mapOfList_append_last {α : Type*} (l : List (String × α)) (k : String) (v : α) :
    mapGet (mapOfList (l ++ [(k, v)])) k = some v := by
  rw [mapOfList, List.foldl_append]
  exact mapGet_mapSet_self _ k v

/-- `Map.set` does not change the key list when the key is present, and
appends the fresh key when it is not. -/
theorem keys_mapSet {α : Type*} (m : List (String × α)) (k : String) (v : α) :
    (mapSet m k v).map Prod.fst =
      if m.any (fun p => p.1 = k) then m.map Prod.fst else m.map Prod.fst ++ [k] := by
  unfold mapSet
  by_cases h : m.any (fun p => p.1 = k)
  · rw [if_pos h, if_pos h, List.map_map]
    refine List.map_congr_left fun p _ => ?_
    by_cases hp : p.1 = k
    · simp [hp]
    · simp [hp]
  · rw [if_neg h, if_neg h]
    simp

/-- `Map.set` preserves duplicate-freedom of the key list. -/
theorem nodupKeys_mapSet {α : Type*} (m : List (String × α)) (k : String) (v : α)
    (h : (m.map Prod.fst).Nodup) : ((mapSet m k v).map Prod.fst).Nodup := by
  rw [keys_mapSet]
  by_cases hm : m.any (fun p => p.1 = k)
  · rwa [if_pos hm]
  · rw [if_neg hm]
    refine List.Nodup.append h (List.nodup_singleton k) ?_
    intro a ha hb
    rcases List.mem_singleton.mp hb with rfl
    rcases List.mem_map.mp ha with ⟨p, hp, hpk⟩
    exact hm (List.any_eq_true.mpr ⟨p, hp, decide_eq_true hpk⟩)

/-- A built map has a duplicate-free key list: one entry per id. -/
theorem nodupKeys_mapOfList {α : Type*} (l : List (String × α)) :
    ((mapOfList l).map Prod.fst).Nodup := by
  rw [mapOfList]
  have main : ∀ (acc : List (String × α)), (acc.map Prod.fst).Nodup →
      ((l.foldl (fun m p => mapSet m p.1 p.2) acc).map Prod.fst).Nodup := by
    induction l with
    | nil => intro acc hacc; exact hacc
    | cons q l ih =>
      intro acc hacc
      exact ih _ (nodupKeys_mapSet acc q.1 q.2 hacc)
  exact main [] (by simp)

/-! ### Frame lemmas for the event handlers -/

theorem handleMouseMove_frame (msqrt : K → K) (nodes : List (GraphNode K))
    (rl rt cx cy : K) (s : EngineState K) :
    (handleMouseMove msqrt nodes rl rt cx cy s).zoom = s.zoom ∧
    (handleMouseMove msqrt nodes rl rt cx cy s).isDragging = s.isDragging ∧
    (handleMouseMove msqrt nodes rl rt cx cy s).draggingNode = s.draggingNode := by
  unfold handleMouseMove
  split
  · exact ⟨rfl, rfl, rfl⟩
  · split
    · exact ⟨rfl, rfl, rfl⟩
    · exact ⟨rfl, rfl, rfl⟩

theorem handleMouseDown_frame (msqrt : K → K) (nodes : List (GraphNode K))
    (rl rt cx cy : K) (s : EngineState K) :
    (handleMouseDown msqrt nodes rl rt cx cy s).zoom = s.zoom ∧
    (handleMouseDown msqrt nodes rl rt cx cy s).pan = s.pan ∧
    (handleMouseDown msqrt nodes rl rt cx cy s).nodePositions = s.nodePositions := by
  unfold handleMouseDown
  split
  · exact ⟨rfl, rfl, rfl⟩
  · exact ⟨rfl, rfl, rfl⟩

/-- Any single event keeps the zoom inside `[0.5, 2]` once it is there. -/
theorem zoom_bounds_step (msqrt : K → K) (nodes : List (GraphNode K)) (rl rt : K)
    (e : Event K) (s : EngineState K) (h1 : (1 : K)/2 ≤ s.zoom) (h2 : s.zoom ≤ 2) :
    (1 : K)/2 ≤ (step msqrt nodes rl rt e s).zoom ∧
      (step msqrt nodes rl rt e s).zoom ≤ 2 := by
  cases e with
  | mouseMove cx cy =>
    rw [show step msqrt nodes rl rt (.mouseMove cx cy) s =
      handleMouseMove msqrt nodes rl rt cx cy s from rfl,
      (handleMouseMove_frame msqrt nodes rl rt cx cy s).1]
    exact ⟨h1, h2⟩
  | mouseDown cx cy =>
    rw [show step msqrt nodes rl rt (.mouseDown cx cy) s =
      handleMouseDown msqrt nodes rl rt cx cy s from rfl,
      (handleMouseDown_frame msqrt nodes rl rt cx cy s).1]
    exact ⟨h1, h2⟩
  | mouseUp => exact ⟨h1, h2⟩
  | mouseLeave => exact ⟨h1, h2⟩
  | wheel d =>
    exact ⟨le_min (le_max_right _ _) (by norm_num), min_le_right _ _⟩
  | zoomIn =>
    refine ⟨le_min (by nlinarith) (by norm_num), min_le_right _ _⟩
  | zoomOut =>
    refine ⟨le_max_right _ _, max_le (by nlinarith) (by norm_num)⟩
  | resetView =>
    constructor
    · rw [show (step msqrt nodes rl rt .resetView s).zoom = (1 : K) from rfl]; norm_num
    · rw [show (step msqrt nodes rl rt .resetView s).zoom = (1 : K) from rfl]; norm_num

theorem zoom_bounds_run (msqrt : K → K) (nodes : List (GraphNode K)) (rl rt : K)
    (events : List (Event K)) (s : EngineState K)
    (h1 : (1 : K)/2 ≤ s.zoom) (h2 : s.zoom ≤ 2) :
    (1 : K)/2 ≤ (run msqrt nodes rl rt events s).zoom ∧
      (run msqrt nodes rl rt events s).zoom ≤ 2 := by
  induction events generalizing s with
  | nil => exact ⟨h1, h2⟩
  | cons e evs ih =>
    have hs := zoom_bounds_step msqrt nodes rl rt e s h1 h2
    exact ih (step msqrt nodes rl rt e s) hs.1 hs.2

/-! ### Indexing the node-building loop -/

theorem buildNodes_getElem? (mcos msin : K → K) (ns : List RawNode) (j i : ℕ) :
    (buildNodes mcos msin j ns)[i]? = (ns[i]?).map (fun nd =>
      { id := nd.id, label := nd.label, type := nd.type,
        x := 400 + mcos (((j + i : ℕ) : K) * (1/2)) * 150,
        y := 300 + msin (((j + i : ℕ) : K) * (1/2)) * 150,
        details := nd.attributes.getD [] }) := by
  induction ns generalizing j i with
  | nil => simp [buildNodes]
  | cons nd ns ih =>
    cases i with
    | zero =>
      simp only [buildNodes, List.getElem?_cons_zero, Option.map_some', Nat.add_zero]
    | succ i =>
      have e : j + 1 + i = j + (i + 1) := by omega
      simp only [buildNodes, List.getElem?_cons_succ, ih (j + 1) i, e]

/-- **C2.** The initial position of the node at index `i` of the input list is
exactly `(400 + cos(i * 0.5) * 150, 300 + sin(i * 0.5) * 150)`, a function of
the index alone, and building the model twice from the same input yields the
same result. -/
theorem C2_initial_positions_formula (mcos msin : K → K) (ns : List RawNode)
    (es : List RawEdge) (i : ℕ) (h : i < ns.length) :
    ((generateGraphData mcos msin ns es).1[i]?).map (fun n => (n.x, n.y)) =
      some (400 + mcos ((i : K) * (1/2)) * 150, 300 + msin ((i : K) * (1/2)) * 150) ∧
    generateGraphData mcos msin ns es = generateGraphData mcos msin ns es := by
  refine ⟨?_, rfl⟩
  have hb := buildNodes_getElem? (K := K) mcos msin ns 0 i
  rw [show (generateGraphData mcos msin ns es).1 = buildNodes mcos msin 0 ns from rfl, hb,
    List.getElem?_eq_getElem h]
  simp

/-- Witness for C2: a concrete two-node input over `ℚ` with the library
trigonometric functions instantiated by the identity function; the node at
index 1 sits at `(400 + (1*0.5)*150, 300 + (1*0.5)*150) = (475, 375)`. -/
theorem C2_witness :
    1 < 2 ∧
    ((generateGraphData (fun q : ℚ => q) (fun q : ℚ => q)
        [⟨"a", "A", "person", none⟩, ⟨"b", "B", "email", none⟩] []).1[1]?).map
      (fun n => (n.x, n.y)) = some ((475 : ℚ), (375 : ℚ)) := by
  refine ⟨by norm_num, ?_⟩
  have h := (C2_initial_positions_formula (fun q : ℚ => q) (fun q : ℚ => q)
    [⟨"a", "A", "person", none⟩, ⟨"b", "B", "email", none⟩] [] 1 (by norm_num)).1
  rw [h]
  norm_num

/-- **C3.** The screen-to-world mapping used by hit-testing inverts the
world-to-screen mapping used by drawing, exactly, whenever `zoom ≠ 0`. -/
theorem C3_transform_roundtrip (zoom : K) (pan w : K × K) (h : zoom ≠ 0) :
    screenToWorld zoom pan (worldToScreen zoom pan w) = w := by
  unfold screenToWorld worldToScreen
  rw [Prod.ext_iff]
  constructor
  · show (w.1 * zoom + pan.1 - pan.1) / zoom = w.1
    field_simp
  · show (w.2 * zoom + pan.2 - pan.2) / zoom = w.2
    field_simp

/-- Witness for C3 at `zoom = 2`, `pan = (3, 4)`, `w = (5, 6)` over `ℚ`. -/
theorem C3_witness :
    (2 : ℚ) ≠ 0 ∧ screenToWorld (2 : ℚ) (3, 4) (worldToScreen 2 (3, 4) (5, 6)) = (5, 6) :=
  ⟨by norm_num, C3_transform_roundtrip 2 (3, 4) (5, 6) (by norm_num)⟩

/-- **C4.** Starting from the initial zoom of 1, every finite sequence of
events (wheel zooms with factor 1.1 or 0.9, the zoom buttons, reset, and all
pointer events) leaves the zoom inside the closed interval `[0.5, 2]`. -/
theorem C4_zoom_clamped (msqrt : K → K) (nodes : List (GraphNode K)) (rl rt : K)
    (events : List (Event K)) :
    (1 : K)/2 ≤ (run msqrt nodes rl rt events (initState nodes)).zoom ∧
      (run msqrt nodes rl rt events (initState nodes)).zoom ≤ 2 := by
  have h1 : (1 : K)/2 ≤ (initState nodes).zoom := by
    rw [show (initState nodes).zoom = (1 : K) from rfl]; norm_num
  have h2 : (initState nodes).zoom ≤ 2 := by
    rw [show (initState nodes).zoom = (1 : K) from rfl]; norm_num
  exact zoom_bounds_run msqrt nodes rl rt events (initState nodes) h1 h2

/-! ### Hit-testing -/

theorem findNodeAt_cons_some (msqrt : K → K) (positions : List (String × (K × K)))
    (x y : K) (n : GraphNode K) (rest : List (GraphNode K)) (pos : K × K)
    (hpos : mapGet positions n.id = some pos) :
    findNodeAt msqrt positions x y (n :: rest) =
      if msqrt ((x - pos.1) ^ 2 + (y - pos.2) ^ 2) ≤ getNodeSize n.type then some n
      else findNodeAt msqrt positions x y rest := by
  rw [findNodeAt, hpos]

theorem findNodeAt_cons_none (msqrt : K → K) (positions : List (String × (K × K)))
    (x y : K) (n : GraphNode K) (rest : List (GraphNode K))
    (hpos : mapGet positions n.id = none) :
    findNodeAt msqrt positions x y (n :: rest) = findNodeAt msqrt positions x y rest := by
  rw [findNodeAt, hpos]

/-- The implementation's scan loop is exactly "first node in draw order that
the spec-side hit predicate accepts". -/
theorem findNodeAt_eq_firstHitNode (msqrt : K → K) (positions : List (String × (K × K)))
    (x y : K) (nodes : List (GraphNode K)) :
    findNodeAt msqrt positions x y nodes = firstHitNode msqrt positions (x, y) nodes := by
  induction nodes with
  | nil => rfl
  | cons n rest ih =>
    unfold firstHitNode
    cases hpos : mapGet positions n.id with
    | none =>
      rw [findNodeAt_cons_none msqrt positions x y n rest hpos, List.find?_cons,
        show nodeHit msqrt positions (x, y) n = false from by rw [nodeHit, hpos]]
      exact ih
    | some pos =>
      rw [findNodeAt_cons_some msqrt positions x y n rest pos hpos, List.find?_cons]
      by_cases hc : msqrt ((x - pos.1) ^ 2 + (y - pos.2) ^ 2) ≤ getNodeSize n.type
      · rw [if_pos hc,
          show nodeHit msqrt positions (x, y) n = true from by
            rw [nodeHit, hpos]; exact decide_eq_true hc]
      · rw [if_neg hc,
          show nodeHit msqrt positions (x, y) n = false from by
            rw [nodeHit, hpos]; exact decide_eq_false hc]
        exact ih

/-- `√400 = 20`. -/
theorem sqrt_four_hundred : Real.sqrt 400 = 20 := by
  rw [show (400 : ℝ) = 20 ^ 2 by norm_num]
  exact Real.sqrt_sq (by norm_num)

/-- **C5.** Hit-testing converts the pointer position to world space via the
viewport inverse and returns the first node in draw order whose center lies
within its own type-determined radius of that world point; concretely, at
`zoom = 1`, `pan = (0,0)`, a node of radius 20 at world `(100, 100)` is hit
by a pointer at screen `(105, 95)` and missed by one at `(140, 140)`. -/
theorem C5_hit_test :
    (∀ (msqrt : ℝ → ℝ) (nodes : List (GraphNode ℝ))
        (positions : List (String × (ℝ × ℝ))) (zoom : ℝ) (pan : ℝ × ℝ)
        (rl rt cx cy : ℝ),
      getNodeAtPosition msqrt nodes positions zoom pan rl rt cx cy =
        firstHitNode msqrt positions (screenToWorld zoom pan (cx - rl, cy - rt)) nodes) ∧
    getNodeAtPosition Real.sqrt [⟨"n1", "n1", "identity", 100, 100, []⟩]
        [("n1", (100, 100))] 1 (0, 0) 0 0 105 95 =
      some ⟨"n1", "n1", "identity", 100, 100, []⟩ ∧
    getNodeAtPosition Real.sqrt [⟨"n1", "n1", "identity", 100, 100, []⟩]
        [("n1", (100, 100))] 1 (0, 0) 0 0 140 140 = none := by
  have hpos : mapGet [("n1", ((100 : ℝ), (100 : ℝ)))] "n1" =
      some (((100 : ℝ), (100 : ℝ))) := by
    rw [mapGet_cons, if_pos rfl]
  refine ⟨?_, ?_, ?_⟩
  · intro msqrt nodes positions zoom pan rl rt cx cy
    unfold getNodeAtPosition
    exact findNodeAt_eq_firstHitNode msqrt positions _ _ nodes
  · unfold getNodeAtPosition screenToWorld
    have e : ((((105 : ℝ) - 0) - 0) / 1 - 100) ^ 2 + ((((95 : ℝ) - 0) - 0) / 1 - 100) ^ 2
        = 50 := by norm_num
    rw [findNodeAt_cons_some _ _ _ _ _ _ (100, 100) hpos, e,
      show getNodeSize (K := ℝ) "identity" = 20 from rfl, if_pos]
    calc Real.sqrt 50 ≤ Real.sqrt 400 := Real.sqrt_le_sqrt (by norm_num)
    _ = 20 := sqrt_four_hundred
  · unfold getNodeAtPosition screenToWorld
    have e : ((((140 : ℝ) - 0) - 0) / 1 - 100) ^ 2 + ((((140 : ℝ) - 0) - 0) / 1 - 100) ^ 2
        = 3200 := by norm_num
    rw [findNodeAt_cons_some _ _ _ _ _ _ (100, 100) hpos, e,
      show getNodeSize (K := ℝ) "identity" = 20 from rfl, if_neg]
    · rfl
    · rw [not_le]
      calc (20 : ℝ) = Real.sqrt 400 := sqrt_four_hundred.symm
      _ < Real.sqrt 3200 := Real.sqrt_lt_sqrt (by norm_num) (by norm_num)

/-- **C8.** A pointer-move processed while node `a` is being dragged stores
the pointer's world position for `a`, leaves the stored position of every
other node `b` unchanged, and changes neither pan nor zoom. -/
theorem C8_drag_moves_only_dragged (msqrt : K → K) (nodes : List (GraphNode K))
    (rl rt cx cy : K) (s : EngineState K) (a b : String)
    (hdrag : s.draggingNode = some a) (hne : b ≠ a) :
    mapGet (handleMouseMove msqrt nodes rl rt cx cy s).nodePositions a =
      some ((cx - rl - s.pan.1) / s.zoom, (cy - rt - s.pan.2) / s.zoom) ∧
    mapGet (handleMouseMove msqrt nodes rl rt cx cy s).nodePositions b =
      mapGet s.nodePositions b ∧
    (handleMouseMove msqrt nodes rl rt cx cy s).pan = s.pan ∧
    (handleMouseMove msqrt nodes rl rt cx cy s).zoom = s.zoom := by
  unfold handleMouseMove
  rw [hdrag]
  exact ⟨mapGet_mapSet_self _ _ _, mapGet_mapSet_ne _ _ _ _ hne, rfl, rfl⟩

/-- Witness for C8: in `sampleDragState` (dragging `"a"`, zoom 1, pan 0), a
pointer-move to `(10, 20)` stores `(10, 20)` for `"a"` and leaves `"b"`,
pan and zoom untouched. -/
theorem C8_witness :
    sampleDragState.draggingNode = some "a" ∧ "b" ≠ "a" ∧
    (mapGet (handleMouseMove (fun _ : ℚ => 0) [] 0 0 10 20 sampleDragState).nodePositions "a" =
        some ((10 - 0 - sampleDragState.pan.1) / sampleDragState.zoom,
          (20 - 0 - sampleDragState.pan.2) / sampleDragState.zoom) ∧
      mapGet (handleMouseMove (fun _ : ℚ => 0) [] 0 0 10 20 sampleDragState).nodePositions "b" =
        mapGet sampleDragState.nodePositions "b" ∧
      (handleMouseMove (fun _ : ℚ => 0) [] 0 0 10 20 sampleDragState).pan =
        sampleDragState.pan ∧
      (handleMouseMove (fun _ : ℚ => 0) [] 0 0 10 20 sampleDragState).zoom =
        sampleDragState.zoom) :=
  ⟨rfl, by decide,
    C8_drag_moves_only_dragged (fun _ : ℚ => 0) [] 0 0 10 20 sampleDragState "a" "b" rfl
      (by decide)⟩

/-- **C10.** The id reported on click is `node?.id || null`; in particular a
hit node whose id is the empty string is reported as `null`, so it can never
become the selected node. -/
theorem C10_empty_id_reports_null (msqrt : K → K) (nodes : List (GraphNode K))
    (rl rt cx cy : K) (s : EngineState K) (n : GraphNode K)
    (hhit : getNodeAtPosition msqrt nodes s.nodePositions s.zoom s.pan rl rt cx cy = some n)
    (hid : n.id = "") :
    handleClick msqrt nodes rl rt cx cy s = none ∧
    handleClick msqrt nodes rl rt cx cy s =
      jsIdOrNull (getNodeAtPosition msqrt nodes s.nodePositions s.zoom s.pan rl rt cx cy) := by
  refine ⟨?_, rfl⟩
  unfold handleClick
  rw [hhit, show jsIdOrNull (some n) = if n.id = "" then none else some n.id from rfl,
    if_pos hid]

/-- Witness for C10: the empty-id node at the origin is hit by a click at the
origin, and the reported selection is `null`. -/
theorem C10_witness :
    getNodeAtPosition (fun _ : ℚ => 0) [emptyIdNode] emptyIdState.nodePositions
        emptyIdState.zoom emptyIdState.pan 0 0 0 0 = some emptyIdNode ∧
    emptyIdNode.id = "" ∧
    handleClick (fun _ : ℚ => 0) [emptyIdNode] 0 0 0 0 emptyIdState = none :=
  ⟨by decide, rfl,
    (C10_empty_id_reports_null (fun _ : ℚ => 0) [emptyIdNode] 0 0 0 0 emptyIdState
      emptyIdNode (by decide) rfl).1⟩

/-! ### Mutual exclusion of panning and node dragging -/

omit [LinearOrderedField K] in
theorem flagsOK_congr (held : Bool) {s t : EngineState K}
    (hI : t.isDragging = s.isDragging) (hD : t.draggingNode = s.draggingNode)
    (h : FlagsOK held s) : FlagsOK held t := by
  constructor
  · rcases h.1 with h1 | h2
    · exact Or.inl (hI.trans h1)
    · exact Or.inr (hD.trans h2)
  · intro hh
    rcases h.2 hh with ⟨h1, h2⟩
    exact ⟨hI.trans h1, hD.trans h2⟩

/-- Under the no-nested-downs discipline, panning and node dragging are never
simultaneously active at the end of any run. -/
theorem exclusion_run (msqrt : K → K) (nodes : List (GraphNode K)) (rl rt : K)
    (events : List (Event K)) :
    ∀ (held : Bool) (s : EngineState K), wellNested held events = true →
      FlagsOK held s →
      (run msqrt nodes rl rt events s).isDragging = false ∨
        (run msqrt nodes rl rt events s).draggingNode = none := by
  induction events with
  | nil => exact fun held s _ hok => hok.1
  | cons e evs ih =>
    intro held s hwn hok
    rw [show run msqrt nodes rl rt (e :: evs) s =
      run msqrt nodes rl rt evs (step msqrt nodes rl rt e s) from rfl]
    cases e with
    | mouseMove cx cy =>
      have hf := handleMouseMove_frame msqrt nodes rl rt cx cy s
      exact ih held _ (by simpa [wellNested] using hwn)
        (flagsOK_congr held hf.2.1 hf.2.2 hok)
    | mouseDown cx cy =>
      have hwn' : held = false ∧ wellNested true evs = true := by
        simpa [wellNested, Bool.and_eq_true, Bool.not_eq_true'] using hwn
      have hclear := hok.2 hwn'.1
      cases hhit : getNodeAtPosition msqrt nodes s.nodePositions s.zoom s.pan rl rt cx cy with
      | some n =>
        have hstep : step msqrt nodes rl rt (.mouseDown cx cy) s =
            { s with draggingNode := some n.id } := by
          show handleMouseDown msqrt nodes rl rt cx cy s = _
          unfold handleMouseDown
          rw [hhit]
        exact ih true _ hwn'.2
          ⟨Or.inl (by rw [hstep]; exact hclear.1), fun h => nomatch h⟩
      | none =>
        have hstep : step msqrt nodes rl rt (.mouseDown cx cy) s =
            { s with isDragging := true, dragStart := (cx, cy) } := by
          show handleMouseDown msqrt nodes rl rt cx cy s = _
          unfold handleMouseDown
          rw [hhit]
        exact ih true _ hwn'.2
          ⟨Or.inr (by rw [hstep]; exact hclear.2), fun h => nomatch h⟩
    | mouseUp =>
      exact ih false _ (by simpa [wellNested] using hwn)
        ⟨Or.inl rfl, fun _ => ⟨rfl, rfl⟩⟩
    | mouseLeave =>
      exact ih false _ (by simpa [wellNested] using hwn)
        ⟨Or.inl rfl, fun _ => ⟨rfl, rfl⟩⟩
    | wheel d =>
      exact ih held _ (by simpa [wellNested] using hwn) (flagsOK_congr held rfl rfl hok)
    | zoomIn =>
      exact ih held _ (by simpa [wellNested] using hwn) (flagsOK_congr held rfl rfl hok)
    | zoomOut =>
      exact ih held _ (by simpa [wellNested] using hwn) (flagsOK_congr held rfl rfl hok)
    | resetView =>
      exact ih held _ (by simpa [wellNested] using hwn) (flagsOK_congr held rfl rfl hok)

/-- **C7 (amended).** For event sequences in which pointer-downs and
pointer-ups/leaves alternate (no second down while one is held), the engine is
never simultaneously panning and dragging a node; and any pointer-up or
pointer-leave unconditionally clears both, returning the engine to idle. -/
theorem C7_exclusive_no_nested_downs (msqrt : K → K) (nodes : List (GraphNode K))
    (rl rt : K) (events : List (Event K)) (s : EngineState K)
    (hwn : wellNested false events = true) :
    ((run msqrt nodes rl rt events (initState nodes)).isDragging = false ∨
      (run msqrt nodes rl rt events (initState nodes)).draggingNode = none) ∧
    (handleMouseUp s).isDragging = false ∧ (handleMouseUp s).draggingNode = none :=
  ⟨exclusion_run msqrt nodes rl rt events false (initState nodes) hwn
      ⟨Or.inl rfl, fun _ => ⟨rfl, rfl⟩⟩,
    rfl, rfl⟩

/-- Witness for C7 (amended): a concrete alternating event sequence over `ℚ`. -/
theorem C7_witness :
    wellNested false [Event.mouseDown (1 : ℚ) 1, Event.mouseUp, Event.mouseDown 2 2] = true ∧
    (((run (fun _ : ℚ => 0) [] 0 0 [Event.mouseDown 1 1, Event.mouseUp, Event.mouseDown 2 2]
          (initState [])).isDragging = false ∨
        (run (fun _ : ℚ => 0) [] 0 0 [Event.mouseDown 1 1, Event.mouseUp, Event.mouseDown 2 2]
          (initState [])).draggingNode = none) ∧
      (handleMouseUp (initState ([] : List (GraphNode ℚ)))).isDragging = false ∧
      (handleMouseUp (initState ([] : List (GraphNode ℚ)))).draggingNode = none) :=
  ⟨by decide,
    C7_exclusive_no_nested_downs (fun _ : ℚ => 0) [] 0 0
      [Event.mouseDown 1 1, Event.mouseUp, Event.mouseDown 2 2] (initState []) (by decide)⟩

/-- Counterexample to C7 as stated: from the one-node input graph, the event
sequence "pointer-down on empty space, then a second pointer-down on the node
without an intervening pointer-up" reaches a state in which the panning flag
and the dragging-node id are BOTH active. -/
theorem C7_counterexample :
    (run Real.sqrt (generateGraphData Real.cos Real.sin [⟨"a", "A", "identity", none⟩] []).1
        0 0 [Event.mouseDown 0 0, Event.mouseDown 550 300]
        (initState (generateGraphData Real.cos Real.sin
          [⟨"a", "A", "identity", none⟩] []).1)).isDragging = true ∧
    (run Real.sqrt (generateGraphData Real.cos Real.sin [⟨"a", "A", "identity", none⟩] []).1
        0 0 [Event.mouseDown 0 0, Event.mouseDown 550 300]
        (initState (generateGraphData Real.cos Real.sin
          [⟨"a", "A", "identity", none⟩] []).1)).draggingNode = some "a" := by
  have hnode : (generateGraphData Real.cos Real.sin [⟨"a", "A", "identity", none⟩] []).1 =
      [⟨"a", "A", "identity", 550, 300, []⟩] := by
    simp only [generateGraphData, buildNodes]
    norm_num
  rw [hnode]
  have hmiss : getNodeAtPosition Real.sqrt [⟨"a", "A", "identity", 550, 300, []⟩]
      [("a", ((550 : ℝ), (300 : ℝ)))] 1 (0, 0) 0 0 0 0 = none := by
    unfold getNodeAtPosition screenToWorld
    have e : ((((0 : ℝ) - 0) - 0) / 1 - 550) ^ 2 + ((((0 : ℝ) - 0) - 0) / 1 - 300) ^ 2
        = 392500 := by norm_num
    rw [findNodeAt_cons_some _ _ _ _ _ _ (550, 300) (by rw [mapGet_cons, if_pos rfl]), e,
      show getNodeSize (K := ℝ) "identity" = 20 from rfl, if_neg]
    · rfl
    · rw [not_le]
      calc (20 : ℝ) = Real.sqrt 400 := sqrt_four_hundred.symm
      _ < Real.sqrt 392500 := Real.sqrt_lt_sqrt (by norm_num) (by norm_num)
  have hhit : getNodeAtPosition Real.sqrt [⟨"a", "A", "identity", 550, 300, []⟩]
      [("a", ((550 : ℝ), (300 : ℝ)))] 1 (0, 0) 0 0 550 300 =
      some ⟨"a", "A", "identity", 550, 300, []⟩ := by
    unfold getNodeAtPosition screenToWorld
    have e : ((((550 : ℝ) - 0) - 0) / 1 - 550) ^ 2 + ((((300 : ℝ) - 0) - 0) / 1 - 300) ^ 2
        = 0 := by norm_num
    rw [findNodeAt_cons_some _ _ _ _ _ _ (550, 300) (by rw [mapGet_cons, if_pos rfl]), e,
      show getNodeSize (K := ℝ) "identity" = 20 from rfl, if_pos]
    rw [Real.sqrt_zero]
    norm_num
  have h1 : step Real.sqrt [⟨"a", "A", "identity", 550, 300, []⟩] 0 0 (.mouseDown 0 0)
      (initState [⟨"a", "A", "identity", 550, 300, []⟩]) =
      { zoom := 1, pan := (0, 0), isDragging := true, dragStart := (0, 0),
        hoveredNode := none, nodePositions := [("a", ((550 : ℝ), (300 : ℝ)))],
        draggingNode := none } := by
    show handleMouseDown Real.sqrt [⟨"a", "A", "identity", 550, 300, []⟩] 0 0 0 0
      (initState [⟨"a", "A", "identity", 550, 300, []⟩]) = _
    unfold handleMouseDown
    rw [show (initState [⟨"a", "A", "identity", (550 : ℝ), 300, []⟩]).nodePositions =
        [("a", ((550 : ℝ), (300 : ℝ)))] from rfl,
      show (initState [⟨"a", "A", "identity", (550 : ℝ), 300, []⟩]).zoom = (1 : ℝ) from rfl,
      show (initState [⟨"a", "A", "identity", (550 : ℝ), 300, []⟩]).pan =
        ((0 : ℝ), (0 : ℝ)) from rfl, hmiss]
    rfl
  have h2 : step Real.sqrt [⟨"a", "A", "identity", 550, 300, []⟩] 0 0 (.mouseDown 550 300)
      ({ zoom := 1, pan := (0, 0), isDragging := true, dragStart := (0, 0),
         hoveredNode := none, nodePositions := [("a", ((550 : ℝ), (300 : ℝ)))],
         draggingNode := none } : EngineState ℝ) =
      { zoom := 1, pan := (0, 0), isDragging := true, dragStart := (0, 0),
        hoveredNode := none, nodePositions := [("a", ((550 : ℝ), (300 : ℝ)))],
        draggingNode := some "a" } := by
    show handleMouseDown Real.sqrt [⟨"a", "A", "identity", 550, 300, []⟩] 0 0 550 300 _ = _
    unfold handleMouseDown
    rw [hhit]
  rw [show run Real.sqrt [⟨"a", "A", "identity", (550 : ℝ), 300, []⟩] 0 0
      [Event.mouseDown 0 0, Event.mouseDown 550 300]
      (initState [⟨"a", "A", "identity", 550, 300, []⟩]) =
    step Real.sqrt [⟨"a", "A", "identity", 550, 300, []⟩] 0 0 (.mouseDown 550 300)
      (step Real.sqrt [⟨"a", "A", "identity", 550, 300, []⟩] 0 0 (.mouseDown 0 0)
        (initState [⟨"a", "A", "identity", 550, 300, []⟩])) from rfl, h1, h2]
  exact ⟨rfl, rfl⟩

/-! ### Degenerate wheel input -/

/-- Counterexample to C9 as stated: a wheel event with `deltaY = 0` does NOT
leave the state unchanged — from the initial state it multiplies the zoom by
1.1 (the code treats every non-positive `deltaY`, including 0, as zoom-in). -/
theorem C9_counterexample :
    (step (fun _ : ℚ => 0) [] 0 0 (.wheel 0) (initState [])).zoom = 11/10 ∧
    (initState ([] : List (GraphNode ℚ))).zoom = 1 ∧
    step (fun _ : ℚ => 0) [] 0 0 (.wheel 0) (initState []) ≠ initState [] := by
  have hz : (step (fun _ : ℚ => 0) [] 0 0 (.wheel 0) (initState [])).zoom = 11/10 := by
    show min (max ((initState ([] : List (GraphNode ℚ))).zoom *
      (if (0 : ℚ) > 0 then (9 : ℚ)/10 else (11 : ℚ)/10)) ((1 : ℚ)/2)) 2 = 11/10
    rw [if_neg (lt_irrefl (0 : ℚ)),
      show (initState ([] : List (GraphNode ℚ))).zoom = (1 : ℚ) from rfl]
    rw [min_def, max_def]
    norm_num
  refine ⟨hz, rfl, fun h => ?_⟩
  have hc := congrArg EngineState.zoom h
  rw [hz, show (initState ([] : List (GraphNode ℚ))).zoom = (1 : ℚ) from rfl] at hc
  norm_num at hc

/-- **C9 (amended).** A wheel event with `deltaY = 0` is treated as zoom-in:
it multiplies the zoom by 1.1 (clamped to `[0.5, 2]`) and leaves pan, node
positions, hover, and drag state unchanged; it is a no-op only when the zoom
is already at the point where the clamp absorbs the factor. -/
theorem C9_wheel_zero_delta_zooms_in (msqrt : K → K) (nodes : List (GraphNode K))
    (rl rt : K) (s : EngineState K) :
    (step msqrt nodes rl rt (.wheel 0) s).zoom =
      min (max (s.zoom * ((11 : K)/10)) ((1 : K)/2)) 2 ∧
    (step msqrt nodes rl rt (.wheel 0) s).pan = s.pan ∧
    (step msqrt nodes rl rt (.wheel 0) s).nodePositions = s.nodePositions ∧
    (step msqrt nodes rl rt (.wheel 0) s).hoveredNode = s.hoveredNode ∧
    (step msqrt nodes rl rt (.wheel 0) s).isDragging = s.isDragging ∧
    (step msqrt nodes rl rt (.wheel 0) s).draggingNode = s.draggingNode := by
  refine ⟨?_, rfl, rfl, rfl, rfl, rfl⟩
  show min (max (s.zoom * (if (0 : K) > 0 then (9 : K)/10 else (11 : K)/10)) ((1 : K)/2)) 2 = _
  rw [if_neg (lt_irrefl (0 : K))]

/-! ### Dangling edges -/

/-- Counterexample to C1 as stated: the builder keeps an edge whose endpoints
match no node — with an empty node list, the edge `a → b` still appears in
the built model's edge set. -/
theorem C1_counterexample :
    (generateGraphData (fun q : ℚ => q) (fun q : ℚ => q) [] [⟨"a", "b", none⟩]).2 =
      [⟨"a", "b", "connected"⟩] ∧
    (generateGraphData (fun q : ℚ => q) (fun q : ℚ => q) [] [⟨"a", "b", none⟩]).1 = [] :=
  ⟨rfl, rfl⟩

omit [LinearOrderedField K] in
/-- A key that is the id of no node is absent from the seeded position map. -/
theorem mapGet_initPositions_of_not_mem (nodes : List (GraphNode K)) (k : String)
    (h : ∀ n ∈ nodes, n.id ≠ k) : mapGet (initPositions nodes) k = none := by
  refine mapGet_mapOfList_of_not_mem _ _ ?_
  intro p hp
  rcases List.mem_map.mp hp with ⟨n, hn, rfl⟩
  exact h n hn

/-- **C1 (amended).** An edge whose `sourceId` or `targetId` matches no node
id is retained in the built model's edge set, but the renderer emits no
segment for it (both endpoint lookups must succeed for a segment to be
drawn), and processing it is total — no crash. -/
theorem C1_dangling_edge_retained_never_drawn (mcos msin : K → K)
    (ns : List RawNode) (es : List RawEdge) (e : GraphEdge) (sp tp : K × K)
    (he : e ∈ (generateGraphData mcos msin ns es).2)
    (hdangling : (∀ n ∈ (generateGraphData mcos msin ns es).1, n.id ≠ e.source) ∨
      (∀ n ∈ (generateGraphData mcos msin ns es).1, n.id ≠ e.target)) :
    e ∈ (generateGraphData mcos msin ns es).2 ∧
    (e, sp, tp) ∉ drawnEdges (generateGraphData mcos msin ns es).2
      (initPositions (generateGraphData mcos msin ns es).1) := by
  refine ⟨he, ?_⟩
  intro hmem
  rcases List.mem_filterMap.mp hmem with ⟨e', he', hf⟩
  cases hs : mapGet (initPositions (generateGraphData mcos msin ns es).1) e'.source with
  | none =>
    rw [hs] at hf
    exact Option.noConfusion hf
  | some sp' =>
    cases ht : mapGet (initPositions (generateGraphData mcos msin ns es).1) e'.target with
    | none =>
      rw [hs, ht] at hf
      exact Option.noConfusion hf
    | some tp' =>
      rw [hs, ht] at hf
      have hf' : (e', sp', tp') = (e, sp, tp) := Option.some.inj hf
      have hee : e' = e := congrArg (fun t => t.1) hf'
      rcases hdangling with hd | hd
      · rw [hee, mapGet_initPositions_of_not_mem _ _ hd] at hs
        exact Option.noConfusion hs
      · rw [hee, mapGet_initPositions_of_not_mem _ _ hd] at ht
        exact Option.noConfusion ht

/-- Witness for C1 (amended): the dangling edge `a → b` over a one-node graph
is in the built edge set and contributes no drawn segment. -/
theorem C1_witness :
    ((⟨"a", "b", "connected"⟩ : GraphEdge) ∈
      (generateGraphData (fun q : ℚ => q) (fun q : ℚ => q) [⟨"n", "N", "t", none⟩]
        [⟨"a", "b", none⟩]).2) ∧
    ((⟨"a", "b", "connected"⟩ : GraphEdge) ∈
        (generateGraphData (fun q : ℚ => q) (fun q : ℚ => q) [⟨"n", "N", "t", none⟩]
          [⟨"a", "b", none⟩]).2 ∧
      ((⟨"a", "b", "connected"⟩ : GraphEdge), ((0 : ℚ), (0 : ℚ)), ((0 : ℚ), (0 : ℚ))) ∉
        drawnEdges (generateGraphData (fun q : ℚ => q) (fun q : ℚ => q)
            [⟨"n", "N", "t", none⟩] [⟨"a", "b", none⟩]).2
          (initPositions (generateGraphData (fun q : ℚ => q) (fun q : ℚ => q)
            [⟨"n", "N", "t", none⟩] [⟨"a", "b", none⟩]).1)) :=
  ⟨by decide,
    C1_dangling_edge_retained_never_drawn (fun q : ℚ => q) (fun q : ℚ => q)
      [⟨"n", "N", "t", none⟩] [⟨"a", "b", none⟩] ⟨"a", "b", "connected"⟩
      ((0 : ℚ), (0 : ℚ)) ((0 : ℚ), (0 : ℚ)) (by decide) (Or.inl (by decide))⟩

/-! ### Duplicate node ids and empty input -/

/-- Counterexample to C6 as stated: for an input with two records sharing id
`"a"`, the built model's node list keeps BOTH entities (no deduplication). -/
theorem C6_counterexample :
    ((generateGraphData (fun q : ℚ => q) (fun q : ℚ => q)
        [⟨"a", "l1", "t", none⟩, ⟨"a", "l2", "t", none⟩] []).1.map
      (fun n => n.id)) = ["a", "a"] ∧
    ((generateGraphData (fun q : ℚ => q) (fun q : ℚ => q)
        [⟨"a", "l1", "t", none⟩, ⟨"a", "l2", "t", none⟩] []).1.map
      (fun n => n.label)) = ["l1", "l2"] := by
  refine ⟨by decide, by decide⟩

theorem buildNodes_length (mcos msin : K → K) (j : ℕ) (ns : List RawNode) :
    (buildNodes mcos msin j ns).length = ns.length := by
  induction ns generalizing j with
  | nil => rfl
  | cons nd ns ih => simp [buildNodes, ih]

/-- General "last one wins" for the map builder: if an entry `(k, v)` sits
anywhere in the entry list and no later entry bears key `k`, the built map
stores `v` at `k` — regardless of how many earlier entries bear `k`. -/
theorem mapGet_mapOfList_last {α : Type*} (l l' : List (String × α)) (k : String) (v : α)
    (h : ∀ p ∈ l', p.1 ≠ k) :
    mapGet (mapOfList (l ++ (k, v) :: l')) k = some v := by
  rw [mapOfList, List.foldl_append, List.foldl_cons,
    mapGet_foldl_mapSet_of_not_mem l' k h]
  exact mapGet_mapSet_self _ k v

/-- **C6 (amended).** The built node list retains every input record,
duplicates included; the derived position store keeps exactly one entry per
id (its key list is duplicate-free), and for every duplicated id the stored
position is that of the last record bearing that id — whatever its position
in the input; an empty node and edge list produces an empty graph without
error. -/
theorem C6_positions_last_wins (mcos msin : K → K) (ns : List RawNode)
    (es : List RawEdge) (nodes l1 l2 : List (GraphNode K)) (n : GraphNode K)
    (hlast : ∀ m ∈ l2, m.id ≠ n.id) :
    ((generateGraphData mcos msin ns es).1).length = ns.length ∧
    ((initPositions nodes).map Prod.fst).Nodup ∧
    mapGet (initPositions (l1 ++ n :: l2)) n.id = some (n.x, n.y) ∧
    generateGraphData mcos msin ([] : List RawNode) ([] : List RawEdge) =
      (([] : List (GraphNode K)), ([] : List GraphEdge)) ∧
    initPositions ([] : List (GraphNode K)) = [] := by
  refine ⟨buildNodes_length mcos msin 0 ns, nodupKeys_mapOfList _, ?_, rfl, rfl⟩
  rw [initPositions, List.map_append, List.map_cons]
  refine mapGet_mapOfList_last _ _ n.id (n.x, n.y) ?_
  intro p hp
  rcases List.mem_map.mp hp with ⟨m, hm, rfl⟩
  exact hlast m hm

/-- Witness for C6 (amended): in the input `[a₁, a₂, b]`, whose id `"a"` is
borne by the first two records and last by `a₂` (not the final record of the
list), the position store maps `"a"` to `a₂`'s coordinates `(6, 7)`. -/
theorem C6_witness :
    mapGet (initPositions ([⟨"a", "l1", "t", 4, 5, []⟩] ++
        (⟨"a", "l2", "t", 6, 7, []⟩ : GraphNode ℚ) :: [⟨"b", "B", "t", 8, 9, []⟩]))
      "a" = some (6, 7) :=
  (C6_positions_last_wins (fun q : ℚ => q) (fun q : ℚ => q) [] []
    [] [⟨"a", "l1", "t", 4, 5, []⟩] [⟨"b", "B", "t", 8, 9, []⟩]
    ⟨"a", "l2", "t", 6, 7, []⟩ (by decide)).2.2.1

end DFM
